import Mathlib

/-!
Shallow embedding of the vector-embedding core of `insightops`
(`src/backend/utils/embeddings.py`, class `EmbeddingEngine`).

External collaborators (the sentence-transformer model, the Milvus vector
store, the uuid generator) are modelled as explicit oracles passed into each
operation; each operation returns an `Except String` result together with the
trace of external calls it issued, mirroring the Python control flow
(try/except-log-raise around each external call).
-/

namespace InsightOps

/-- A dense vector, modelled with rational coordinates. -/
abbrev Vec := List ℚ

/-- One stored row of the Milvus collection (fields of the schema built in
`_init_collection`). -/
structure Record where
  id : String
  document_id : String
  text : String
  vector : Vec
  deriving Repr, DecidableEq

/-- The column-aligned batch built in `store_embeddings` (the `entities`
list: ids column, document_id column, text column, vector column). -/
structure Batch where
  ids : List String
  docIds : List String
  texts : List String
  vectors : List Vec
  deriving Repr, DecidableEq

/-- External calls the engine issues, in order. -/
inductive Event where
  | connectCall
  | hasCheck (name : String)
  | attach (name : String)
  | createCall (name : String)
  | indexCall (name : String)
  | loadCall (name : String)
  | insertCall (batch : Batch)
  | flushCall
  | searchCall
  | disconnectCall
  deriving Repr, DecidableEq

/-- `true` exactly on collection-creation calls. -/
def Event.isCreate : Event → Bool
  | .createCall _ => true
  | _ => false

/-- `true` on any call touching the collection (everything issued by
`_init_collection`). -/
def Event.isCollectionOp : Event → Bool
  | .hasCheck _ => true
  | .attach _ => true
  | .createCall _ => true
  | .indexCall _ => true
  | .loadCall _ => true
  | _ => false

/-- Outcomes of the external Milvus calls: each field says whether the
corresponding call succeeds or raises (with which message). -/
structure MilvusEnv where
  connectResult : Except String Unit
  createResult : Except String Unit
  indexResult : Except String Unit
  loadResult : Except String Unit
  insertResult : Except String Unit
  flushResult : Except String Unit
  searchResult : Except String Unit
  disconnectResult : Except String Unit
  deriving Repr

/-- Milvus-side state: which collections exist. -/
structure MilvusState where
  collections : List String
  deriving Repr, DecidableEq

/-- The sentence-transformer model: its per-text encoding function and
whether `encode` raises on a given batch. -/
structure ModelEnv where
  enc : String → Vec
  encodeFails : List String → Option String

/-- Embedding of `_connect_milvus`: issue the connect call; on failure log
and re-raise. -/
def connect_milvus (env : MilvusEnv) : Except String Unit × List Event :=
  match env.connectResult with
  | .ok _ => (.ok (), [.connectCall])
  | .error e => (.error e, [.connectCall])

/-- Embedding of `_init_collection`: check existence; attach if present,
otherwise create the collection and its index; in both branches load the
collection; any failure is re-raised. -/
def init_collection (env : MilvusEnv) (s : MilvusState) (name : String) :
    Except String Unit × MilvusState × List Event :=
  if s.collections.contains name then
    match env.loadResult with
    | .error e => (.error e, s, [.hasCheck name, .attach name, .loadCall name])
    | .ok _ => (.ok (), s, [.hasCheck name, .attach name, .loadCall name])
  else
    match env.createResult with
    | .error e => (.error e, s, [.hasCheck name, .createCall name])
    | .ok _ =>
      let s' : MilvusState := ⟨name :: s.collections⟩
      match env.indexResult with
      | .error e => (.error e, s', [.hasCheck name, .createCall name, .indexCall name])
      | .ok _ =>
        match env.loadResult with
        | .error e =>
            (.error e, s', [.hasCheck name, .createCall name, .indexCall name, .loadCall name])
        | .ok _ =>
            (.ok (), s', [.hasCheck name, .createCall name, .indexCall name, .loadCall name])

/-- Embedding of `EmbeddingEngine.__init__` after the model load: connect to
Milvus, then initialize the collection; a connect failure is raised before
any collection work. -/
def engine_init (env : MilvusEnv) (s : MilvusState) (name : String) :
    Except String Unit × MilvusState × List Event :=
  match connect_milvus env with
  | (.error e, t) => (.error e, s, t)
  | (.ok _, t) =>
    let out := init_collection env s name
    (out.1, out.2.1, t ++ out.2.2)

/-- Embedding of `embed_texts`: call `model.encode` on the whole batch and
convert to lists; re-raise on failure. A successful encode is one vector per
text, in order. -/
def embed_texts (m : ModelEnv) (texts : List String) : Except String (List Vec) :=
  match m.encodeFails texts with
  | some e => .error e
  | none => .ok (texts.map m.enc)

/-- The `document_id` resolved at the start of `store_embeddings`:
`metadata.get('document_id', 'unknown')`. -/
def resolveDocId (metadata : List (String × String)) : String :=
  (metadata.lookup "document_id").getD "unknown"

/-- The ids generated in `store_embeddings`: one fresh uuid per text, drawn
from the generator at consecutive indices. -/
def mkIds (uuidGen : Nat → String) (nextId n : Nat) : List String :=
  (List.range' nextId n).map uuidGen

/-- The `entities` columns built in `store_embeddings`. -/
def storeBatch (uuidGen : Nat → String) (nextId : Nat) (embeddings : List Vec)
    (texts : List String) (metadata : List (String × String)) : Batch :=
  { ids := mkIds uuidGen nextId texts.length
    docIds := List.replicate texts.length (resolveDocId metadata)
    texts := texts
    vectors := embeddings }

/-- Embedding of `store_embeddings`: generate uuids, resolve `document_id`,
build the column batch, insert, flush, return the ids; re-raise on failure.
Returns the result, the advanced uuid counter, and the trace. -/
def store_embeddings (env : MilvusEnv) (uuidGen : Nat → String) (nextId : Nat)
    (embeddings : List Vec) (texts : List String) (metadata : List (String × String)) :
    Except String (List String) × Nat × List Event :=
  let vector_ids := mkIds uuidGen nextId texts.length
  let entities := storeBatch uuidGen nextId embeddings texts metadata
  let nextId' := nextId + texts.length
  match env.insertResult with
  | .error e => (.error e, nextId', [.insertCall entities])
  | .ok _ =>
    match env.flushResult with
    | .error e => (.error e, nextId', [.insertCall entities, .flushCall])
    | .ok _ => (.ok vector_ids, nextId', [.insertCall entities, .flushCall])

/-- A ranked hit returned by the external Milvus search capability. -/
structure Hit where
  id : String
  score : ℚ
  text : String
  document_id : String
  deriving Repr, DecidableEq

/-- Ranking relation used by the store: earlier hits score at least as high. -/
def hitGE (a b : Hit) : Prop := b.score ≤ a.score

instance : DecidableRel hitGE := fun a b => inferInstanceAs (Decidable (b.score ≤ a.score))

instance : IsTotal Hit hitGE := ⟨fun a b => le_total b.score a.score⟩

instance : IsTrans Hit hitGE := ⟨fun _ _ _ h1 h2 => le_trans h2 h1⟩

/-- The hit the store reports for a matched record: its id, its score against
the query, and the requested output fields. -/
def mkHit (score : Vec → Vec → ℚ) (q : Vec) (r : Record) : Hit :=
  { id := r.id, score := score q r.vector, text := r.text,
    document_id := r.document_id }

/-- The external Milvus `search` capability on one query vector: every stored
record scored against the query, ranked by non-increasing score, truncated to
`limit` nearest neighbours, with `text` and `document_id` as output fields. -/
def milvusSearch (score : Vec → Vec → ℚ) (records : List Record) (q : Vec)
    (limit : Nat) : List Hit :=
  ((records.map (mkHit score q)).insertionSort hitGE).take limit

/-- The dictionary built per hit in `search` (`document_id` nested under
`metadata`). -/
structure SearchResult where
  id : String
  text : String
  score : ℚ
  metadata_document_id : String
  deriving Repr, DecidableEq

/-- The result dictionary built from one hit inside `search`. -/
def hitToResult (hit : Hit) : SearchResult :=
  { id := hit.id, text := hit.text, score := hit.score,
    metadata_document_id := hit.document_id }

/-- Embedding of `search`: embed the query text (singleton batch), take its
first vector, issue the similarity query with `limit = top_k`, flatten the
per-query groups into one list of result dictionaries; re-raise on failure. -/
def search_op (m : ModelEnv) (env : MilvusEnv) (score : Vec → Vec → ℚ)
    (records : List Record) (query_text : String) (top_k : Nat) :
    Except String (List SearchResult) × List Event :=
  match embed_texts m [query_text] with
  | .error e => (.error e, [])
  | .ok query_embeddings =>
    match query_embeddings with
    | [] => (.error "IndexError", [])
    | query_embedding :: _ =>
      match env.searchResult with
      | .error e => (.error e, [.searchCall])
      | .ok _ =>
        let search_results := [milvusSearch score records query_embedding top_k]
        let results := search_results.flatMap fun hits => hits.map hitToResult
        (.ok results, [.searchCall])

/-- Embedding of `close`: issue the disconnect; a failure is caught and only
logged, so the method always returns normally. -/
def close (env : MilvusEnv) : Except String Unit × List Event :=
  match env.disconnectResult with
  | .ok _ => (.ok (), [.disconnectCall])
  | .error _ => (.ok (), [.disconnectCall])

/-- An environment in which every external Milvus call succeeds. -/
def okEnv : MilvusEnv :=
  { connectResult := .ok (), createResult := .ok (), indexResult := .ok ()
    loadResult := .ok (), insertResult := .ok (), flushResult := .ok ()
    searchResult := .ok (), disconnectResult := .ok () }

/-- A concrete model of the uuid generator: pairwise-distinct strings. -/
def uuidModel (n : Nat) : String := String.mk (List.replicate n 'u')

theorem uuidModel_injective : Function.Injective uuidModel := by
  intro a b h
  have h3 : List.replicate a 'u' = List.replicate b 'u' := congrArg String.data h
  have h2 := congrArg List.length h3
  simpa using h2

/-- C10: every row of the column batch built by a single `store_embeddings`
call carries the same `document_id`: the value resolved once from `metadata`
is replicated for every row, so one batch cannot mix documents. -/
theorem C10_single_document_id_per_batch (env : MilvusEnv) (uuidGen : Nat → String)
    (nextId : Nat) (embeddings : List Vec) (texts : List String)
    (metadata : List (String × String)) :
    (store_embeddings env uuidGen nextId embeddings texts metadata).2.2.head? =
      some (.insertCall (storeBatch uuidGen nextId embeddings texts metadata)) ∧
    (storeBatch uuidGen nextId embeddings texts metadata).docIds =
      List.replicate texts.length (resolveDocId metadata) ∧
    ∀ x ∈ (storeBatch uuidGen nextId embeddings texts metadata).docIds,
      ∀ y ∈ (storeBatch uuidGen nextId embeddings texts metadata).docIds, x = y := by
  refine ⟨?_, rfl, ?_⟩
  · rcases hins : env.insertResult with e | u <;>
      rcases hfl : env.flushResult with e2 | u2 <;>
      simp [store_embeddings, hins, hfl, storeBatch]
  · intro x hx y hy
    have hx2 : x = resolveDocId metadata := List.eq_of_mem_replicate hx
    have hy2 : y = resolveDocId metadata := List.eq_of_mem_replicate hy
    rw [hx2, hy2]

/-- C8: the `document_id` column falls back to the literal "unknown" when the
key is missing from `metadata`, and uses the supplied value for every row when
present; a missing key does not make the call fail. -/
theorem C8_document_id_default (uuidGen : Nat → String) (nextId : Nat)
    (embeddings : List Vec) (texts : List String) (metadata : List (String × String)) :
    (metadata.lookup "document_id" = none →
      (storeBatch uuidGen nextId embeddings texts metadata).docIds =
        List.replicate texts.length "unknown") ∧
    (∀ v, metadata.lookup "document_id" = some v →
      (storeBatch uuidGen nextId embeddings texts metadata).docIds =
        List.replicate texts.length v) ∧
    (store_embeddings okEnv uuidGen nextId embeddings texts metadata).1 =
      .ok (mkIds uuidGen nextId texts.length) := by
  refine ⟨fun h => ?_, fun v h => ?_, rfl⟩
  · simp [storeBatch, resolveDocId, h]
  · simp [storeBatch, resolveDocId, h]

/-- Witness for C8 at concrete inputs: key absent, then key present. -/
theorem C8_document_id_default_witness :
    (storeBatch (fun _ => "u") 0 [[(1 : ℚ)]] ["a"] []).docIds = ["unknown"] ∧
    (storeBatch (fun _ => "u") 0 [[(1 : ℚ)]] ["a"] [("document_id", "d1")]).docIds =
      ["d1"] := by
  constructor
  · have h := (C8_document_id_default (fun _ => "u") 0 [[(1 : ℚ)]] ["a"] []).1 rfl
    simpa using h
  · have h := (C8_document_id_default (fun _ => "u") 0 [[(1 : ℚ)]] ["a"]
      [("document_id", "d1")]).2.1 "d1" (by decide)
    simpa using h

/-- C7: a successful `store_embeddings` call issues exactly one insert of the
whole batch, followed by a flush, before returning. -/
theorem C7_insert_then_flush (env : MilvusEnv) (uuidGen : Nat → String)
    (nextId : Nat) (embeddings : List Vec) (texts : List String)
    (metadata : List (String × String)) (ids : List String)
    (h : (store_embeddings env uuidGen nextId embeddings texts metadata).1 = .ok ids) :
    (store_embeddings env uuidGen nextId embeddings texts metadata).2.2 =
      [.insertCall (storeBatch uuidGen nextId embeddings texts metadata), .flushCall] := by
  rcases hins : env.insertResult with e | u <;>
    rcases hfl : env.flushResult with e2 | u2 <;>
    simp [store_embeddings, hins, hfl] at h ⊢

/-- Witness for C7: a concrete successful store call. -/
theorem C7_insert_then_flush_witness :
    (store_embeddings okEnv (fun _ => "u") 0 [[(1 : ℚ)]] ["a"] []).2.2 =
      [.insertCall (storeBatch (fun _ => "u") 0 [[(1 : ℚ)]] ["a"] []), .flushCall] :=
  C7_insert_then_flush okEnv (fun _ => "u") 0 [[(1 : ℚ)]] ["a"] [] ["u"] rfl

/-- C9: initialization connects first; a connect failure is raised, the state
is unchanged, and no collection call (existence check, create, index, load) is
ever issued. -/
theorem C9_connect_before_collection (env : MilvusEnv) (s : MilvusState)
    (name e : String) (h : env.connectResult = .error e) :
    engine_init env s name = (.error e, s, [.connectCall]) ∧
    ∀ ev ∈ (engine_init env s name).2.2, ev.isCollectionOp = false := by
  have h1 : engine_init env s name = (.error e, s, [.connectCall]) := by
    simp [engine_init, connect_milvus, h]
  refine ⟨h1, ?_⟩
  rw [h1]
  intro ev hev
  simp at hev
  rw [hev]
  rfl

/-- Witness for C9: a failing connect aborts initialization. -/
theorem C9_connect_before_collection_witness :
    engine_init { okEnv with connectResult := .error "conn" } ⟨[]⟩ "docs" =
      (.error "conn", ⟨[]⟩, [.connectCall]) :=
  (C9_connect_before_collection { okEnv with connectResult := .error "conn" }
    ⟨[]⟩ "docs" "conn" rfl).1

/-- C6: a successful `embed_texts` returns the per-text encodings in input
order: exactly one vector per text, each of the model dimension; the empty
batch yields the empty list. -/
theorem C6_embed_shape (m : ModelEnv) (d : Nat) (texts : List String) (vs : List Vec)
    (hdim : ∀ t, (m.enc t).length = d)
    (h : embed_texts m texts = .ok vs) :
    vs = texts.map m.enc ∧ vs.length = texts.length ∧
    (∀ v ∈ vs, v.length = d) ∧ (texts = [] → vs = []) := by
  have hv : vs = texts.map m.enc := by
    unfold embed_texts at h
    rcases hf : m.encodeFails texts with _ | e <;> rw [hf] at h
    · injection h with h2
      exact h2.symm
    · cases h
  subst hv
  refine ⟨rfl, by simp, ?_, ?_⟩
  · intro v hv
    rcases List.mem_map.mp hv with ⟨t, ht, rfl⟩
    exact hdim t
  · intro ht
    subst ht
    rfl

/-- Witness for C6 at a concrete model and batch. -/
theorem C6_embed_shape_witness :
    ([[(0 : ℚ), 0], [0, 0]] : List Vec).length = (["a", "b"] : List String).length ∧
    ∀ v ∈ ([[(0 : ℚ), 0], [0, 0]] : List Vec), v.length = 2 := by
  have h := C6_embed_shape ⟨fun _ => [0, 0], fun _ => none⟩ 2 ["a", "b"]
    [[0, 0], [0, 0]] (fun _ => rfl) rfl
  exact ⟨h.2.1, h.2.2.1⟩

theorem store_ok_ids (env : MilvusEnv) (uuidGen : Nat → String) (nextId : Nat)
    (embeddings : List Vec) (texts : List String) (md : List (String × String))
    (ids : List String)
    (h : (store_embeddings env uuidGen nextId embeddings texts md).1 = .ok ids) :
    ids = mkIds uuidGen nextId texts.length := by
  rcases hins : env.insertResult with e | u <;>
    rcases hfl : env.flushResult with e2 | u2 <;>
    simp [store_embeddings, hins, hfl] at h
  exact h.symm

theorem store_nextId (env : MilvusEnv) (uuidGen : Nat → String) (nextId : Nat)
    (embeddings : List Vec) (texts : List String) (md : List (String × String)) :
    (store_embeddings env uuidGen nextId embeddings texts md).2.1 =
      nextId + texts.length := by
  rcases hins : env.insertResult with e | u <;>
    rcases hfl : env.flushResult with e2 | u2 <;>
    simp [store_embeddings, hins, hfl]

theorem mkIds_length (g : Nat → String) (s n : Nat) : (mkIds g s n).length = n := by
  simp [mkIds]

theorem mkIds_nodup (g : Nat → String) (hg : Function.Injective g) (s n : Nat) :
    (mkIds g s n).Nodup :=
  (List.nodup_range' s n).map hg

theorem mkIds_disjoint (g : Nat → String) (hg : Function.Injective g) (s n m : Nat) :
    ∀ a ∈ mkIds g s n, a ∉ mkIds g (s + n) m := by
  intro a ha hb
  rcases List.mem_map.mp ha with ⟨i, hi, rfl⟩
  rcases List.mem_map.mp hb with ⟨j, hj, hij⟩
  have hji := hg hij
  rw [List.mem_range'_1] at hi hj
  omega

/-- C1 counterexample: a store call with one vector and two texts (mismatched
lengths) raises no local precondition error — both the insert and the flush
are issued and ids are returned. -/
theorem C1_counterexample :
    ([[(1 : ℚ)]] : List Vec).length ≠ (["a", "b"] : List String).length ∧
    (store_embeddings okEnv (fun _ => "u") 0 [[(1 : ℚ)]] ["a", "b"] []).1 =
      .ok ["u", "u"] ∧
    Event.insertCall (storeBatch (fun _ => "u") 0 [[(1 : ℚ)]] ["a", "b"] []) ∈
      (store_embeddings okEnv (fun _ => "u") 0 [[(1 : ℚ)]] ["a", "b"] []).2.2 ∧
    Event.flushCall ∈
      (store_embeddings okEnv (fun _ => "u") 0 [[(1 : ℚ)]] ["a", "b"] []).2.2 := by
  refine ⟨by decide, rfl, ?_, ?_⟩ <;>
    simp [store_embeddings, okEnv, storeBatch, mkIds]

/-- C1 amended: `store_embeddings` performs no length precondition check;
whatever the input lengths, its first external call is the insert of the
column batch, whose id, document_id and text columns have length
`texts.length` while the vector column is `embeddings` itself. -/
theorem C1_no_precondition_check (env : MilvusEnv) (uuidGen : Nat → String)
    (nextId : Nat) (embeddings : List Vec) (texts : List String)
    (metadata : List (String × String))
    (hne : embeddings.length ≠ texts.length) :
    (store_embeddings env uuidGen nextId embeddings texts metadata).2.2.head? =
      some (.insertCall (storeBatch uuidGen nextId embeddings texts metadata)) ∧
    (storeBatch uuidGen nextId embeddings texts metadata).ids.length = texts.length ∧
    (storeBatch uuidGen nextId embeddings texts metadata).texts = texts ∧
    (storeBatch uuidGen nextId embeddings texts metadata).vectors = embeddings := by
  refine ⟨?_, ?_, rfl, rfl⟩
  · rcases hins : env.insertResult with e | u <;>
      rcases hfl : env.flushResult with e2 | u2 <;>
      simp [store_embeddings, hins, hfl]
  · simp [storeBatch, mkIds]

/-- Witness for the amended C1 at a concrete mismatched call. -/
theorem C1_no_precondition_check_witness :
    (store_embeddings okEnv (fun _ => "u") 0 [[(1 : ℚ)]] ["a", "b"] []).2.2.head? =
      some (.insertCall (storeBatch (fun _ => "u") 0 [[(1 : ℚ)]] ["a", "b"] [])) :=
  (C1_no_precondition_check okEnv (fun _ => "u") 0 [[(1 : ℚ)]] ["a", "b"] []
    (by decide)).1

/-- C4 counterexample: `close` swallows a failing disconnect — the error is
only logged and the method returns normally instead of re-raising. -/
theorem C4_counterexample :
    ({ okEnv with disconnectResult := .error "disconnect failed" } :
        MilvusEnv).disconnectResult = .error "disconnect failed" ∧
    close { okEnv with disconnectResult := .error "disconnect failed" } =
      (.ok (), [.disconnectCall]) :=
  ⟨rfl, rfl⟩

/-- C4 amended: every failure in connect, collection initialization, embed,
store and search is re-raised to the caller with its original error, but
`close` catches a disconnect failure and only logs it, returning normally. -/
theorem C4_propagation (env : MilvusEnv) (m : ModelEnv) (e name : String)
    (texts : List String) (uuidGen : Nat → String) (nextId : Nat)
    (embeddings : List Vec) (metadata : List (String × String))
    (score : Vec → Vec → ℚ) (records : List Record) (q : String) (top_k : Nat) :
    (connect_milvus { env with connectResult := .error e }).1 = .error e ∧
    (init_collection { env with createResult := .error e } ⟨[]⟩ name).1 = .error e ∧
    (init_collection { env with loadResult := .error e } ⟨[name]⟩ name).1 = .error e ∧
    embed_texts ⟨m.enc, fun _ => some e⟩ texts = .error e ∧
    (store_embeddings { env with insertResult := .error e } uuidGen nextId
      embeddings texts metadata).1 = .error e ∧
    (store_embeddings { env with insertResult := .ok (), flushResult := .error e }
      uuidGen nextId embeddings texts metadata).1 = .error e ∧
    (search_op ⟨m.enc, fun _ => some e⟩ env score records q top_k).1 = .error e ∧
    (search_op ⟨m.enc, fun _ => none⟩ { env with searchResult := .error e }
      score records q top_k).1 = .error e ∧
    (close { env with disconnectResult := .error e }).1 = .ok () := by
  refine ⟨rfl, ?_, ?_, rfl, rfl, rfl, rfl, rfl, ?_⟩
  · simp [init_collection]
  · simp [init_collection]
  · rcases hd : env.disconnectResult with e2 | u <;> simp [close, hd]

/-- C2: two consecutive successful store calls with equal-length inputs return
exactly one id per text, column-aligned with the texts and vectors in input
order, and all returned ids are pairwise distinct, across the two calls
included. -/
theorem C2_ids_fresh_ordered (env : MilvusEnv) (uuidGen : Nat → String)
    (hg : Function.Injective uuidGen) (nextId : Nat)
    (embeddings1 embeddings2 : List Vec) (texts1 texts2 : List String)
    (md1 md2 : List (String × String)) (ids1 ids2 : List String)
    (hlen1 : embeddings1.length = texts1.length)
    (hlen2 : embeddings2.length = texts2.length)
    (h1 : (store_embeddings env uuidGen nextId embeddings1 texts1 md1).1 = .ok ids1)
    (h2 : (store_embeddings env uuidGen
            (store_embeddings env uuidGen nextId embeddings1 texts1 md1).2.1
            embeddings2 texts2 md2).1 = .ok ids2) :
    ids1.length = texts1.length ∧ ids2.length = texts2.length ∧
    (ids1 ++ ids2).Nodup ∧
    (storeBatch uuidGen nextId embeddings1 texts1 md1).ids = ids1 ∧
    (storeBatch uuidGen nextId embeddings1 texts1 md1).texts = texts1 ∧
    (storeBatch uuidGen nextId embeddings1 texts1 md1).vectors = embeddings1 := by
  have e1 : ids1 = mkIds uuidGen nextId texts1.length :=
    store_ok_ids env uuidGen nextId embeddings1 texts1 md1 ids1 h1
  rw [store_nextId env uuidGen nextId embeddings1 texts1 md1] at h2
  have e2 : ids2 = mkIds uuidGen (nextId + texts1.length) texts2.length :=
    store_ok_ids env uuidGen (nextId + texts1.length) embeddings2 texts2 md2 ids2 h2
  subst e1
  subst e2
  refine ⟨mkIds_length uuidGen nextId texts1.length,
    mkIds_length uuidGen (nextId + texts1.length) texts2.length, ?_, rfl, rfl, rfl⟩
  rw [List.nodup_append]
  exact ⟨mkIds_nodup uuidGen hg nextId texts1.length,
    mkIds_nodup uuidGen hg (nextId + texts1.length) texts2.length,
    mkIds_disjoint uuidGen hg nextId texts1.length texts2.length⟩

/-- Witness for C2: two concrete consecutive store calls. -/
theorem C2_ids_fresh_ordered_witness :
    (mkIds uuidModel 0 1 ++ mkIds uuidModel 1 1).Nodup := by
  have h := C2_ids_fresh_ordered okEnv uuidModel uuidModel_injective 0
    [[(1 : ℚ)]] [[(2 : ℚ)]] ["a"] ["b"] [] [] (mkIds uuidModel 0 1)
    (mkIds uuidModel 1 1) rfl rfl rfl rfl
  exact h.2.2.1

theorem init_attach_eq (env : MilvusEnv) (s : MilvusState) (name : String)
    (hmem : s.collections.contains name = true) (hl : env.loadResult = .ok ()) :
    init_collection env s name =
      (.ok (), s, [.hasCheck name, .attach name, .loadCall name]) := by
  have hm : name ∈ s.collections := by simpa using hmem
  simp [init_collection, hm, hl]

theorem init_create_eq (env : MilvusEnv) (s : MilvusState) (name : String)
    (hmem : ¬ s.collections.contains name = true) (hc : env.createResult = .ok ())
    (hi : env.indexResult = .ok ()) (hl : env.loadResult = .ok ()) :
    init_collection env s name =
      (.ok (), ⟨name :: s.collections⟩,
        [.hasCheck name, .createCall name, .indexCall name, .loadCall name]) := by
  have hm : name ∉ s.collections := by simpa using hmem
  simp [init_collection, hm, hc, hi, hl]

/-- C5: with a healthy store, running `_init_collection` twice with the same
name raises in neither run, creates the collection at most once (the second
run only attaches), and each run's last external call is the load. -/
theorem C5_init_idempotent (env : MilvusEnv) (s : MilvusState) (name : String)
    (hc : env.createResult = .ok ()) (hi : env.indexResult = .ok ())
    (hl : env.loadResult = .ok ()) :
    (init_collection env s name).1 = .ok () ∧
    (init_collection env (init_collection env s name).2.1 name).1 = .ok () ∧
    (((init_collection env s name).2.2 ++
        (init_collection env (init_collection env s name).2.1 name).2.2).filter
      Event.isCreate).length ≤ 1 ∧
    (init_collection env (init_collection env s name).2.1 name).2.2.filter
      Event.isCreate = [] ∧
    (init_collection env s name).2.2.getLast? = some (.loadCall name) ∧
    (init_collection env (init_collection env s name).2.1 name).2.2.getLast? =
      some (.loadCall name) := by
  by_cases hmem : s.collections.contains name = true
  · rw [init_attach_eq env s name hmem hl]
    rw [init_attach_eq env s name hmem hl]
    exact ⟨rfl, rfl, by simp [Event.isCreate], by simp [Event.isCreate], rfl, rfl⟩
  · rw [init_create_eq env s name hmem hc hi hl]
    have hmem2 : (MilvusState.mk (name :: s.collections)).collections.contains name =
        true := by simp
    rw [init_attach_eq env ⟨name :: s.collections⟩ name hmem2 hl]
    exact ⟨rfl, rfl, by simp [Event.isCreate], by simp [Event.isCreate], rfl, rfl⟩

/-- Witness for C5 on a healthy store, starting from an empty deployment. -/
theorem C5_init_idempotent_witness :
    (init_collection okEnv ⟨[]⟩ "docs").1 = .ok () ∧
    (init_collection okEnv (init_collection okEnv ⟨[]⟩ "docs").2.1 "docs").1 =
      .ok () := by
  have h := C5_init_idempotent okEnv ⟨[]⟩ "docs" rfl rfl rfl
  exact ⟨h.1, h.2.1⟩

theorem milvusSearch_length_le (score : Vec → Vec → ℚ) (records : List Record)
    (q : Vec) (limit : Nat) : (milvusSearch score records q limit).length ≤ limit := by
  unfold milvusSearch
  exact List.length_take_le _ _

theorem milvusSearch_sorted (score : Vec → Vec → ℚ) (records : List Record)
    (q : Vec) (limit : Nat) : (milvusSearch score records q limit).Pairwise hitGE :=
  List.Pairwise.sublist (List.take_sublist limit _)
    (List.sorted_insertionSort hitGE (records.map (mkHit score q)))

theorem milvusSearch_mem (score : Vec → Vec → ℚ) (records : List Record)
    (q : Vec) (limit : Nat) (x : Hit) (h : x ∈ milvusSearch score records q limit) :
    ∃ r ∈ records, x = mkHit score q r := by
  have h2 := List.mem_of_mem_take h
  rw [List.mem_insertionSort] at h2
  rcases List.mem_map.mp h2 with ⟨r, hr, rfl⟩
  exact ⟨r, hr, rfl⟩

/-- C3: a successful `search` returns at most `top_k` results, ordered by
non-increasing score, each carrying the matched record's id, text,
document_id and its score against the embedded query. -/
theorem C3_search_ranked (m : ModelEnv) (env : MilvusEnv) (score : Vec → Vec → ℚ)
    (records : List Record) (q : String) (top_k : Nat) (results : List SearchResult)
    (hk : 0 < top_k)
    (h : (search_op m env score records q top_k).1 = .ok results) :
    results.length ≤ top_k ∧
    results.Pairwise (fun a b => b.score ≤ a.score) ∧
    ∀ res ∈ results, ∃ r ∈ records,
      res.id = r.id ∧ res.text = r.text ∧ res.metadata_document_id = r.document_id ∧
      res.score = score (m.enc q) r.vector := by
  have hres : results =
      (milvusSearch score records (m.enc q) top_k).map hitToResult := by
    rcases hf : m.encodeFails [q] with _ | e <;>
      rcases hs : env.searchResult with e2 | u <;>
      simp [search_op, embed_texts, hf, hs] at h
    exact h.symm
  subst hres
  refine ⟨?_, ?_, ?_⟩
  · simpa using milvusSearch_length_le score records (m.enc q) top_k
  · rw [List.pairwise_map]
    exact milvusSearch_sorted score records (m.enc q) top_k
  · intro res hres2
    rcases List.mem_map.mp hres2 with ⟨hit, hhit, rfl⟩
    rcases milvusSearch_mem score records (m.enc q) top_k hit hhit with ⟨r, hr, rfl⟩
    exact ⟨r, hr, rfl, rfl, rfl, rfl⟩

/-- Witness for C3 on a one-record collection and `top_k = 1`. -/
theorem C3_search_ranked_witness :
    ([({ id := "i1", text := "t1", score := 0, metadata_document_id := "d1" } :
        SearchResult)]).length ≤ 1 := by
  have h := C3_search_ranked ⟨fun _ => [0], fun _ => none⟩ okEnv (fun _ _ => 0)
    [{ id := "i1", document_id := "d1", text := "t1", vector := [0] }] "q" 1
    [{ id := "i1", text := "t1", score := 0, metadata_document_id := "d1" }]
    (by decide) rfl
  exact h.1

end InsightOps
